import Mathlib

/-!
Verification development for the KaguOS assembler (`src/asm.py`), a two-pass
assembler that turns a line-oriented assembly language into a flat memory
image.  The Python source is embedded shallowly: every definition below
mirrors one construct of `asm.py`.  Python strings are modelled through their
character lists so that all definitions are executable; the tagged lexeme
strings of the source (e.g. `"_ cmd write"`) are modelled by the `Lexeme`
structure holding the sigil field, the three-letter kind tag and the payload,
exactly the three slices `lex[0]`, `lex[2:5]`, `lex[6:]` used by the source.
A Python `sys.exit` inside the error reporter is modelled by the `aborted`
flag, an uncaught interpreter exception by `Option`/`Outcome.crashed`.
-/

namespace KaguAsm

/-- Whitespace characters as treated by Python `strip()` and the tokenizer. -/
def isWs (c : Char) : Bool :=
  (c == ' ') || (c == '\t') || (c == '\n') || (c == '\r')

/-- Python `str.strip()` on both ends. -/
def pyTrim (s : String) : String :=
  ⟨((s.data.dropWhile isWs).reverse.dropWhile isWs).reverse⟩

/-- Characters of a line before the first `//`, as in `line.split("//")[0]`. -/
def takeBeforeSlashes : List Char → List Char
  | '/' :: '/' :: _ => []
  | c :: rest => c :: takeBeforeSlashes rest
  | [] => []

/-- `line.split("//")[0].strip()` from the pass-1 loop. -/
def stripComment (s : String) : String :=
  pyTrim ⟨takeBeforeSlashes s.data⟩

/-- `s.startswith(p)`. -/
def sStarts (s p : String) : Bool := p.data.isPrefixOf s.data

/-- `s.endswith(p)`. -/
def sEnds (s p : String) : Bool := p.data.isSuffixOf s.data

/-- Python slice `s[n:]` (character based). -/
def sDrop (s : String) (n : Nat) : String := ⟨s.data.drop n⟩

/-- Python slice `s[:n]`. -/
def sTake (s : String) (n : Nat) : String := ⟨s.data.take n⟩

/-- Drop `n` characters from the right, as in the slice `s[:-n]`. -/
def sDropRight (s : String) (n : Nat) : String :=
  ⟨s.data.take (s.data.length - n)⟩

/-- Python `s.strip(c)` for the quote character: remove every leading and
trailing `"`. -/
def stripQuotes (s : String) : String :=
  ⟨((s.data.dropWhile (· == '"')).reverse.dropWhile (· == '"')).reverse⟩

def isDigitC (c : Char) : Bool := 48 ≤ c.toNat && c.toNat ≤ 57

def isAlphaC (c : Char) : Bool :=
  (65 ≤ c.toNat && c.toNat ≤ 90) || (97 ≤ c.toNat && c.toNat ≤ 122)

def isIdentTail (c : Char) : Bool := isAlphaC c || isDigitC c || (c == '_')

/-- Regex `^[0-9]+$`. -/
def isNum (s : String) : Bool := !s.data.isEmpty && s.data.all isDigitC

/-- Regex `^[a-zA-Z][a-zA-Z0-9_]*$` (identifier after `var:`/`label:`). -/
def isIdentAlpha (s : String) : Bool :=
  match s.data with
  | [] => false
  | c :: cs => isAlphaC c && cs.all isIdentTail

/-- Regex `^[a-zA-Z_][a-zA-Z0-9_]*$` (bare name). -/
def isIdentAny (s : String) : Bool :=
  match s.data with
  | [] => false
  | c :: cs => (isAlphaC c || c == '_') && cs.all isIdentTail

/-- One classified token.  The source packs these three fields into a string
`"<sigil> <kind> <payload>"` and later recovers them with the slices
`lex[0]`, `lex[2:5]` and `lex[6:]`. -/
structure Lexeme where
  pre : String
  kind : String
  payload : String
deriving DecidableEq, Repr

/-- The `CMDS_ARRAY` table of command names. -/
def CMDS_ARRAY : List String :=
  ["write", "copy", "label", "jump", "jump_if", "jump_if_not", "jump_err",
   "cpu_exec", "var", "DEBUG_ON", "DEBUG_OFF"]

/-- `is_command`. -/
def isCommand (w : String) : Bool := CMDS_ARRAY.contains w

/-- Named buffer/register identifiers recognised by the classifier. -/
def regSpecials : List String :=
  ["DISPLAY_BUFFER", "DISPLAY_COLOR", "DISPLAY_BACKGROUND",
   "KEYBOARD_BUFFER", "PROGRAM_COUNTER"]

/-- Keyboard-mode identifiers recognised by the classifier. -/
def modNames : List String :=
  ["KEYBOARD_READ_LINE", "KEYBOARD_READ_LINE_SILENTLY",
   "KEYBOARD_READ_CHAR", "KEYBOARD_READ_CHAR_SILENTLY"]

/-- `parse_lexeme` from the source, rule for rule and in the same order. -/
def parse_lexeme (tok : String) : Lexeme :=
  if tok = "" || sStarts tok ("//") then ⟨"_", "cmt", ""⟩
  else
    let pre := if sStarts tok ("@") || sStarts tok ("*") then sTake tok 1 else "_"
    let lex := if sStarts tok ("@") || sStarts tok ("*") then sDrop tok 1 else tok
    if sStarts lex ("\"") && sEnds lex ("\"") then
      ⟨pre, "str", sDropRight (sDrop lex 1) 1⟩
    else if lex = "to" then ⟨pre, "kto", "=>"⟩
    else if isNum lex then ⟨pre, "num", lex⟩
    else if sStarts lex ("var:") then
      let name := sDrop lex 4
      if isIdentAlpha name then ⟨pre, "var", name⟩
      else ⟨pre, "err", "name_format " ++ lex⟩
    else if sStarts lex ("label:") then
      let name := sDrop lex 6
      if isIdentAlpha name then ⟨pre, "lbl", name⟩
      else ⟨pre, "err", "name_format " ++ lex⟩
    else if sStarts lex ("OP_") then ⟨pre, "opr", lex⟩
    else if sStarts lex ("SYS_CALL_") then ⟨pre, "sys", lex⟩
    else if sStarts lex ("REG_") || sStarts lex ("INFO_") ||
            regSpecials.contains lex || sStarts lex ("FREE_") then
      ⟨pre, "reg", lex⟩
    else if sStarts lex ("COLOR_") then ⟨pre, "clr", lex⟩
    else if modNames.contains lex then ⟨pre, "mod", lex⟩
    else if isCommand lex then ⟨pre, "cmd", lex⟩
    else if isIdentAny lex then ⟨pre, "nam", lex⟩
    else ⟨pre, "err", "unknown " ++ lex⟩

/-- One step of the quote-aware token scanner: read one token.
Returns the token and the remaining input; `none` models the `ValueError`
raised by `shlex.split` on an unbalanced quote. -/
def scanToken : List Char → Bool → List Char → Option (List Char × List Char)
  | [], true, _ => none
  | [], false, acc => some (acc.reverse, [])
  | c :: cs, inq, acc =>
    if c = '"' then scanToken cs (!inq) (c :: acc)
    else if isWs c && !inq then some (acc.reverse, cs)
    else scanToken cs inq (c :: acc)

/-- Fuelled token loop; the fuel is always sufficient for the initial call. -/
def tokenizeAux : Nat → List Char → Option (List String)
  | _, [] => some []
  | 0, _ => none
  | fuel + 1, l =>
    let l2 := l.dropWhile isWs
    match l2 with
    | [] => some []
    | _ =>
      match scanToken l2 false [] with
      | none => none
      | some (tok, rest) => (tokenizeAux fuel rest).map (fun ts => (⟨tok⟩ : String) :: ts)

/-- `shlex.split(line, posix=False)`: whitespace-separated, quote-aware
tokens with the quote characters kept; `none` on unbalanced quoting. -/
def tokenize (s : String) : Option (List String) :=
  tokenizeAux (s.data.length + 1) s.data

/-- An entry of the `PARSED_LEXEMES` stream: a `file <name>` marker, a
`line <no>` marker, or a packed lexeme. -/
inductive Entry where
  | file : String → Entry
  | line : Nat → Entry
  | lx : Lexeme → Entry
deriving DecidableEq, Repr

def INSTR_COPY_FROM_TO_ADDRESS : String := "1"
def INSTR_JUMP : String := "3"
def INSTR_JUMP_IF : String := "4"
def INSTR_JUMP_IF_NOT : String := "5"
def INSTR_JUMP_ERR : String := "6"
def INSTR_CPU_EXEC : String := "0"
def KERNEL_START : Nat := 41
def GLOBAL_RAM_SIZE : Nat := 4600

/-- The global mutable state of the assembler: error counter, the parallel
symbol arrays, the lexeme stream and the running address counter. -/
structure St where
  symtab : List (String × String)
  errCount : Nat
  aborted : Bool
  labels : List String
  labelsAddr : List Nat
  vars : List String
  varsAddr : List Nat
  varsDecl : List Nat
  constants : List String
  constantsEval : List String
  constantsAddr : List Nat
  parsedLexemes : List Entry
  nextInstrAddr : Nat
deriving DecidableEq, Repr

/-- Initial state; `FIRST_INSTRUCTION_NO` is 17 for user images and
`KERNEL_START` for kernel images. -/
def initSt (userSpace : Bool) (symtab : List (String × String)) : St :=
  { symtab := symtab, errCount := 0, aborted := false,
    labels := [], labelsAddr := [],
    vars := [], varsAddr := [], varsDecl := [],
    constants := [], constantsEval := [], constantsAddr := [],
    parsedLexemes := [], nextInstrAddr := if userSpace then 17 else KERNEL_START }

/-- `compilation_error`: bump the counter; past 20 errors the process calls
`sys.exit(1)`, modelled by the `aborted` flag. -/
def compilationError (st : St) : St :=
  { st with errCount := st.errCount + 1,
            aborted := st.aborted || decide (20 < st.errCount + 1) }

/-- `find_index`: position of a value in a list, `none` for Python's `-1`. -/
def find_index (v : String) : List String → Option Nat
  | [] => none
  | a :: as => if a = v then some 0 else (find_index v as).map (· + 1)

/-- Python list subscription `l[i]` with negative indices counting from the
end; `none` models an `IndexError`. -/
def pyNth {α : Type} (l : List α) (i : Int) : Option α :=
  if 0 ≤ i then l.get? i.toNat
  else if i.natAbs ≤ l.length then l.get? (l.length - i.natAbs)
  else none

/-- Operand count per command as computed in pass 1 (the `INSTRUCTION_RULES`
`count` field combined with the explicit overrides; unknown commands get 0). -/
def cmdLexemeCount (cmd : String) : Nat :=
  if cmd = "write" || cmd = "copy" then 4
  else if cmd = "label" || cmd = "var" || cmd = "jump" || cmd = "jump_if" ||
          cmd = "jump_if_not" || cmd = "jump_err" then 2
  else if cmd = "cpu_exec" || cmd = "DEBUG_ON" || cmd = "DEBUG_OFF" then 1
  else 0

/-- Insert one `write` payload into the constant pool and record its
evaluated form (source lines 190-208).  The boolean result is unused here
but kept for symmetry with `writePool`. -/
def poolConst (st : St) (c : String) : St × Bool :=
  if st.constants.contains c then (st, false)
  else
    let st1 := { st with constants := st.constants ++ [c] }
    if sStarts c ("\"") then
      ({ st1 with constantsEval := st1.constantsEval ++ [stripQuotes c] }, false)
    else if sStarts c ("LABEL:") then
      let lbl := sDrop c 6
      match find_index lbl st1.labels with
      | none =>
        (compilationError { st1 with constantsEval := st1.constantsEval ++ ["0"] }, false)
      | some idx =>
        ({ st1 with constantsEval :=
            st1.constantsEval ++ [Nat.repr ((st1.labelsAddr.get? idx).getD 0)] }, false)
    else if (st1.symtab.lookup c).isSome then
      ({ st1 with constantsEval :=
          st1.constantsEval ++ [(st1.symtab.lookup c).getD ""] }, false)
    else if isNum c then
      ({ st1 with constantsEval := st1.constantsEval ++ [c] }, false)
    else
      (compilationError { st1 with constantsEval := st1.constantsEval ++ ["0"] }, false)

/-- The `write` constant-pooling block (source lines 177-208).  The boolean
is `true` when the source executes `continue` (a `label:` payload whose label
is not yet declared), skipping the extend/advance step of the line. -/
def writePool (st : St) (cmd : String) (tokens : List String) : St × Bool :=
  if cmd = "write" ∧ 1 < tokens.length then
    let valTok := (tokens.get? 1).getD ""
    if sStarts valTok ("\"") && sEnds valTok ("\"") then poolConst st valTok
    else if sStarts valTok ("label:") then
      let lbl := sDrop valTok 6
      if st.labels.contains lbl then poolConst st ("LABEL:" ++ lbl)
      else (compilationError st, true)
    else poolConst st valTok
  else (st, false)

/-- The `var`/`label` declaration block of pass 1 (source lines 132-154).
Note that the source does not `continue` here: the line still falls through
to the generic instruction handling afterwards. -/
def declStep (st : St) (cmd : String) (tokens : List String) : St :=
  if cmd = "var" ∧ 2 ≤ tokens.length then
    let nm := (tokens.get? 1).getD ""
    if st.vars.contains nm then compilationError st
    else { st with vars := st.vars ++ [nm],
                   varsDecl := st.varsDecl ++ [st.nextInstrAddr] }
  else if cmd = "label" ∧ 2 ≤ tokens.length then
    let nm := (tokens.get? 1).getD ""
    if st.labels.contains nm then compilationError st
    else { st with labels := st.labels ++ [nm],
                   labelsAddr := st.labelsAddr ++ [st.nextInstrAddr] }
  else st

/-- Remainder of a pass-1 line after the declaration block: operand count,
the `write` quote wrap (source line 165-166, applied to every first operand
that does not already start with a quote), the missing-argument check,
classification, constant pooling, and finally the stream extension and the
address-counter increment. -/
def pass1LineCore (st : St) (cmd : String) (tokens0 : List String) : St :=
  let lexemeCount := cmdLexemeCount cmd
  let tokens :=
    if cmd = "write" ∧ 1 < tokens0.length ∧
        sStarts ((tokens0.get? 1).getD "") ("\"") = false then
      tokens0.set 1 ("\"" ++ (tokens0.get? 1).getD "" ++ "\"")
    else tokens0
  if tokens.length < lexemeCount then compilationError st
  else
    let parsed := (tokens.take lexemeCount).map parse_lexeme ++
                  [(⟨"_", "cmt", ""⟩ : Lexeme)]
    let r := writePool st cmd tokens
    if r.2 then r.1
    else if r.1.aborted then r.1
    else { r.1 with
            parsedLexemes := r.1.parsedLexemes ++ parsed.map Entry.lx,
            nextInstrAddr := r.1.nextInstrAddr + 1 }

/-- Process one raw source line in pass 1. -/
def pass1Line (lineno : Nat) (st : St) (raw : String) : St :=
  if st.aborted then st
  else
    let line := stripComment raw
    if line = "" then st
    else
      let st1 := { st with parsedLexemes := st.parsedLexemes ++ [Entry.line lineno] }
      match tokenize line with
      | none => compilationError st1
      | some [] => st1
      | some (cmd :: rest) =>
        let st2 := declStep st1 cmd (cmd :: rest)
        if st2.aborted then st2 else pass1LineCore st2 cmd (cmd :: rest)

/-- Pass 1 over one source file (lines numbered from 1). -/
def pass1File (st : St) (lines : List String) : St :=
  lines.enum.foldl (fun s p => pass1Line (p.1 + 1) s p.2) st

/-- Pass 1 over all source files, each preceded by its `file` marker. -/
def pass1 (st : St) (files : List (String × List String)) : St :=
  files.foldl
    (fun s f =>
      if s.aborted then s
      else pass1File { s with parsedLexemes := s.parsedLexemes ++ [Entry.file f.1] } f.2)
    st

/-- The address allocator (source lines 213-218): constants in pool order
directly after the last pass-1 address, then vars in declaration
order. -/
def allocate (st : St) : St :=
  let cA := (List.range st.constants.length).map (fun i => st.nextInstrAddr + i)
  let a1 := st.nextInstrAddr + st.constants.length
  let vA := (List.range st.vars.length).map (fun i => a1 + i)
  { st with constantsAddr := cA, varsAddr := vA,
            nextInstrAddr := a1 + st.vars.length }

/-- Opcode table of `eval_lexeme`'s `cmd` branch (`.get(v, "")`). -/
def cmdOpcode (v : String) : String :=
  if v = "copy" then INSTR_COPY_FROM_TO_ADDRESS
  else if v = "write" then INSTR_COPY_FROM_TO_ADDRESS
  else if v = "jump" then INSTR_JUMP
  else if v = "jump_if" then INSTR_JUMP_IF
  else if v = "jump_if_not" then INSTR_JUMP_IF_NOT
  else if v = "jump_err" then INSTR_JUMP_ERR
  else if v = "cpu_exec" then INSTR_CPU_EXEC
  else if v = "DEBUG_ON" then "DEBUG_ON"
  else if v = "DEBUG_OFF" then "DEBUG_OFF"
  else ""

/-- The local `p` of `eval_lexeme`: the sigil, or empty for `_`. -/
def evalPre (lex : Lexeme) : String := if lex.pre = "_" then "" else lex.pre

/-- `eval_lexeme` (source lines 230-308): resolve one operand lexeme to its
numeric text.  `none` models an uncaught `IndexError`; the returned state
carries any diagnostics raised.  The source's locals `p`, `t`, `v` are
`evalPre lex`, `lex.kind` and `lex.payload`. -/
def eval_lexeme (st : St) (curInstrNo : Int) (lex? : Option Lexeme)
    (pos : String) : Option (String × St) :=
  match lex? with
  | none => some ("0", compilationError st)
  | some lex =>
    if lex.kind = "cmt" then some ("", st)
    else if lex.kind = "nam" then
      match find_index lex.payload st.vars with
      | some idx => (pyNth st.varsAddr idx).map (fun a => (evalPre lex ++ Nat.repr a, st))
      | none =>
        match find_index lex.payload st.labels with
        | some idx => (pyNth st.labelsAddr idx).map (fun a => (Nat.repr a, st))
        | none => some ("0", compilationError st)
    else if lex.kind = "cmd" then some (cmdOpcode lex.payload, st)
    else if lex.kind = "kto" then some ("", st)
    else if lex.kind = "num" then some (evalPre lex ++ lex.payload, st)
    else if lex.kind = "reg" ∨ lex.kind = "opr" ∨ lex.kind = "sys" ∨
            lex.kind = "clr" ∨ lex.kind = "mod" then
      match st.symtab.lookup lex.payload with
      | none => some ("0", compilationError st)
      | some x => some (x, st)
    else if lex.kind = "str" then
      if st.constants.contains ("\"" ++ lex.payload ++ "\"") then
        match find_index ("\"" ++ lex.payload ++ "\"") st.constants with
        | some idx => (pyNth st.constantsAddr idx).map (fun a => (Nat.repr a, st))
        | none => none
      else some ("0", st)
    else if lex.kind = "lbl" then
      if pos = "write_1" then
        (pyNth st.constantsAddr
          (match find_index ("LABEL:" ++ lex.payload) st.constants with
           | some i => (i : Int)
           | none => -1)).map (fun a => (Nat.repr a, st))
      else
        match find_index lex.payload st.labels with
        | some idx => (pyNth st.labelsAddr idx).map (fun a => (Nat.repr a, st))
        | none => some ("0", st)
    else if lex.kind = "var" then
      match find_index lex.payload st.vars with
      | none => some ("0", compilationError st)
      | some idx =>
        match pyNth st.varsDecl idx with
        | none => none
        | some d =>
          if curInstrNo < (d : Int) then some ("0", compilationError st)
          else (pyNth st.varsAddr idx).map (fun a => (evalPre lex ++ Nat.repr a, st))
    else some ("0", compilationError st)

/-- `debug_string` (source lines 310-314). -/
def debug_string (lex? : Option Lexeme) (pos : String) : String :=
  match lex? with
  | none => "<missing>"
  | some lex =>
    if lex.kind = "str" || (lex.kind = "num" && pos = "write_1") then
      "\"" ++ lex.payload ++ "\""
    else if lex.kind = "var" || lex.kind = "lbl" then
      lex.kind ++ ":" ++ lex.payload
    else if lex.pre = "_" then lex.payload
    else lex.pre ++ lex.payload

/-- Pass-2 state: the shared global state plus the loop-local variables of
the `while` loop (current file/line, instruction counter, emitted output and
the most recent `count`, `lexemes` and command). -/
structure P2 where
  st : St
  curFile : String
  curLineNo : String
  curInstrNo : Int
  output : List String
  lastCount : Option Nat
  lastLexemes : List Lexeme
  lastCmd : String
deriving DecidableEq, Repr

/-- Pass-2 operand counts (source lines 334-346); `none` is the unreachable
unknown-command branch. -/
def p2count (cmd : String) : Option Nat :=
  if cmd = "write" then some 4
  else if cmd = "copy" then some 4
  else if cmd = "jump" || cmd = "jump_if" || cmd = "jump_if_not" ||
          cmd = "jump_err" then some 2
  else if cmd = "label" || cmd = "var" then some 1
  else if cmd = "cpu_exec" || cmd = "DEBUG_ON" || cmd = "DEBUG_OFF" then some 0
  else none

/-- Kind tags accepted by the lexeme-format check at source line 361. -/
def validKinds : List String :=
  ["cmd", "str", "num", "opr", "sys", "clr", "mod", "lbl", "reg", "var",
   "nam", "kto", "err"]

def validLexemeFormat (l : Lexeme) : Bool :=
  (l.pre = "@" || l.pre = "*" || l.pre = "_") && validKinds.contains l.kind

/-- The operand-collecting `for` loop of pass 2 (source lines 348-369):
take `count` stream entries, skipping `_ cmt` entries; a marker, a malformed
entry or the end of the stream raises a diagnostic and discards the operands
collected so far. -/
def collectLexemes (st : St) (acc : List Lexeme) :
    Nat → List Entry → St × List Lexeme × List Entry
  | 0, es => (st, acc, es)
  | _ + 1, [] => (compilationError st, [], [])
  | n + 1, e :: es =>
    match e with
    | Entry.lx l =>
      if l = (⟨"_", "cmt", ""⟩ : Lexeme) then collectLexemes st acc n es
      else if validLexemeFormat l then collectLexemes st (acc ++ [l]) n es
      else (compilationError st, [], es)
    | _ => (compilationError st, [], es)

/-- The pass-2 `while` loop (source lines 319-369).  Each iteration consumes
at least one entry, so the initial fuel `length + 1` is never exhausted.
Note that nothing is emitted inside the loop; it only tracks the most recent
`count`/`lexemes` values. -/
def pass2Loop : Nat → P2 → List Entry → P2 × List Entry
  | _, s, [] => (s, [])
  | 0, s, es => (s, es)
  | fuel + 1, s, e :: es =>
    if s.st.aborted then (s, e :: es)
    else
      match e with
      | Entry.file f => pass2Loop fuel { s with curFile := f } es
      | Entry.line n => pass2Loop fuel { s with curLineNo := Nat.repr n } es
      | Entry.lx l =>
        if l.pre = "_" ∧ l.kind = "cmd" then
          match p2count l.payload with
          | none => pass2Loop fuel { s with st := compilationError s.st } es
          | some c =>
            let r := collectLexemes s.st [] c es
            pass2Loop fuel
              { s with st := r.1, lastCount := some c,
                       lastLexemes := r.2.1, lastCmd := l.payload } r.2.2
        else pass2Loop fuel s es

/-- Evaluate the operand list of one instruction, building the code parts
and the debug parts (the `for i, lex in enumerate(lexemes)` loop at source
lines 382-386). -/
def evalOps (cur : Int) (cmd : String) :
    St → List Lexeme → Nat → Option (St × List String × List String)
  | st, [], _ => some (st, [], [])
  | st, l :: ls, i =>
    match eval_lexeme st cur (some l) (cmd ++ "_" ++ Nat.repr i) with
    | none => none
    | some (v, st1) =>
      if st1.aborted then some (st1, [], [])
      else
        match evalOps cur cmd st1 ls (i + 1) with
        | none => none
        | some (st2, is, ds) =>
          some (st2, if v = "" then is else v :: is,
                debug_string (some l) (cmd ++ "_" ++ Nat.repr i) :: ds)

def joinSpace : List String → String
  | [] => ""
  | [a] => a
  | a :: as => a ++ " " ++ joinSpace as

/-- The emission block (source lines 381-390).  In the source this code sits
under the `elif next_lex:` branch that follows the `while` loop, so it can
run at most once, on the lexemes of the last instruction seen. -/
def emitBlock (s : P2) (debugInfo : Bool) : Option P2 :=
  match evalOps s.curInstrNo s.lastCmd s.st s.lastLexemes 0 with
  | none => none
  | some (st1, instr, dbg) =>
    let final :=
      if debugInfo then joinSpace instr ++ " " ++ joinSpace ("#" :: dbg)
      else joinSpace instr
    some { s with st := st1, output := s.output ++ [final],
                  curInstrNo := s.curInstrNo + 1 }

/-- Split a line at the first `#`, as `line.split("#", 1)`. -/
def breakAtHash : List Char → Option (List Char × List Char)
  | [] => none
  | c :: cs =>
    if c = '#' then some ([], cs)
    else (breakAtHash cs).map (fun p => (c :: p.1, p.2))

/-- Pad with spaces on the right to width `n`, as the format `{code:<15}`. -/
def padRightTo (s : String) (n : Nat) : String :=
  s ++ ⟨List.replicate (n - s.data.length) ' '⟩

/-- Formatting of one emitted line by the image writer (source lines
393-398). -/
def formatOutputLine (line : String) : String :=
  match breakAtHash line.data with
  | none => line
  | some (code, comment) =>
    padRightTo ⟨code⟩ 15 ++ " # " ++ pyTrim ⟨comment⟩

/-- Result of a run: early `sys.exit(1)` after too many diagnostics, an
uncaught interpreter exception, or a completed run with the written image
and the process exit status. -/
inductive Outcome where
  | aborted : Outcome
  | crashed : Outcome
  | done : List String → Nat → Outcome
deriving DecidableEq, Repr

/-- The image writer plus exit status (source lines 392-420): emitted
instruction lines, then one line per evaluated constant, then one blank line
per declared variable; the exit status is the diagnostic count. -/
def finishWrite (s : P2) : St × Outcome :=
  let image := s.output.map formatOutputLine ++ s.st.constantsEval ++
               s.st.vars.map (fun _ => "")
  (s.st, Outcome.done image s.st.errCount)

/-- Pass 2 and the image writer.  After the `while` loop the stream is
exhausted, so `count` is only defined if some instruction was seen (else the
source raises `NameError`), and the final `get_next_lexeme()` yields `None`,
which skips the emission block entirely. -/
def pass2AndWrite (debugInfo : Bool) (first : Nat) (st : St) : St × Outcome :=
  let s0 : P2 :=
    { st := st, curFile := "", curLineNo := "", curInstrNo := (first : Int) - 1,
      output := [], lastCount := none, lastLexemes := [], lastCmd := "" }
  let r := pass2Loop (st.parsedLexemes.length + 1) s0 st.parsedLexemes
  let s1 := r.1
  if s1.st.aborted then (s1.st, Outcome.aborted)
  else
    match s1.lastCount with
    | none => (s1.st, Outcome.crashed)
    | some c =>
      let s2 := { s1 with lastLexemes := if c = 0 then [] else s1.lastLexemes }
      match r.2 with
      | [] => finishWrite s2
      | e :: _ =>
        if (match e with
            | Entry.lx l => l.pre = "_" && l.kind = "cmt"
            | _ => false) then finishWrite s2
        else
          match emitBlock s2 debugInfo with
          | none => (s2.st, Outcome.crashed)
          | some s3 =>
            if s3.st.aborted then (s3.st, Outcome.aborted) else finishWrite s3

/-- The whole assembler run on a list of source files. -/
def assemble (userSpace debugInfo : Bool) (symtab : List (String × String))
    (files : List (String × List String)) : St × Outcome :=
  let first := if userSpace then 17 else KERNEL_START
  let st1 := pass1 (initSt userSpace symtab) files
  if st1.aborted then (st1, Outcome.aborted)
  else pass2AndWrite debugInfo first (allocate st1)

/-- Kernel-mode run with debug info on and an empty external symbol table. -/
def assembleK (files : List (String × List String)) : St × Outcome :=
  assemble false true [] files

/-- Stream entries that start an instruction in pass 2 (`_ cmd` lexemes). -/
def isInstrEntry : Entry → Bool
  | Entry.lx l => decide (l.pre = "_" ∧ l.kind = "cmd")
  | _ => false

/-- Number of instructions in the pass-1 stream. -/
def instrEntryCount (es : List Entry) : Nat := (es.filter isInstrEntry).length

/-- Invariant tying the abort flag to the diagnostic counter: a state that
has not aborted carries at most 20 diagnostics (`compilation_error` exits as
soon as the counter passes 20). -/
def Ok (st : St) : Prop := st.aborted = false → st.errCount ≤ 20

/-- Concrete post-allocation state used to exercise `eval_lexeme`:
one variable `x` at address 43 declared at 41, one label `y` at 41. -/
def stWit : St :=
  { symtab := [], errCount := 0, aborted := false,
    labels := ["y"], labelsAddr := [41],
    vars := ["x"], varsAddr := [43], varsDecl := [41],
    constants := [], constantsEval := [], constantsAddr := [],
    parsedLexemes := [], nextInstrAddr := 44 }

theorem ok_compilationError (st : St) : Ok (compilationError st) := by
  intro h
  have h2 : (st.aborted || decide (20 < st.errCount + 1)) = false := h
  have h3 : ¬ (20 < st.errCount + 1) :=
    of_decide_eq_false (Bool.or_eq_false_iff.mp h2).2
  show st.errCount + 1 ≤ 20
  omega

theorem ok_poolConst (st : St) (c : String) (h : Ok st) : Ok (poolConst st c).1 := by
  unfold poolConst
  dsimp only
  repeat' split
  all_goals first
    | exact h
    | exact ok_compilationError _

theorem ok_writePool (st : St) (cmd : String) (ts : List String) (h : Ok st) :
    Ok (writePool st cmd ts).1 := by
  unfold writePool
  dsimp only
  repeat' split
  all_goals first
    | exact h
    | exact ok_poolConst _ _ h
    | exact ok_compilationError _

theorem ok_declStep (st : St) (cmd : String) (ts : List String) (h : Ok st) :
    Ok (declStep st cmd ts) := by
  unfold declStep
  dsimp only
  repeat' split
  all_goals first
    | exact h
    | exact ok_compilationError _

theorem ok_pass1LineCore (st : St) (cmd : String) (ts : List String) (h : Ok st) :
    Ok (pass1LineCore st cmd ts) := by
  unfold pass1LineCore
  dsimp only
  repeat' split
  all_goals first
    | exact ok_compilationError _
    | exact ok_writePool _ _ _ h

theorem ok_pass1Line (n : Nat) (raw : String) (st : St) (h : Ok st) :
    Ok (pass1Line n st raw) := by
  unfold pass1Line
  dsimp only
  repeat' split
  all_goals first
    | exact h
    | exact ok_compilationError _
    | exact ok_pass1LineCore _ _ _ (ok_declStep _ _ _ h)
    | exact ok_declStep _ _ _ h

theorem ok_foldlLines : ∀ (ps : List (Nat × String)) (st : St), Ok st →
    Ok (ps.foldl (fun s p => pass1Line (p.1 + 1) s p.2) st)
  | [], _, h => h
  | _ :: t, st, h => ok_foldlLines t _ (ok_pass1Line _ _ st h)

theorem ok_pass1File (lines : List String) (st : St) (h : Ok st) :
    Ok (pass1File st lines) :=
  ok_foldlLines lines.enum st h

theorem ok_pass1 (fs : List (String × List String)) :
    ∀ st : St, Ok st → Ok (pass1 st fs) := by
  induction fs with
  | nil => exact fun _ h => h
  | cons f t ih =>
    intro st h
    show Ok (pass1
      (if st.aborted then st
       else pass1File { st with parsedLexemes := st.parsedLexemes ++ [Entry.file f.1] } f.2) t)
    apply ih
    split
    · exact h
    · exact ok_pass1File f.2 _ h

theorem ok_of_pairEq {x v : String} {a b : St}
    (e : some (x, a) = some (v, b)) (h : Ok a) : Ok b := by
  injection e with e1
  injection e1 with e2 e3
  subst e3
  exact h

theorem ok_of_mapEq {o : Option Nat} {f : Nat → String} {v : String} {a b : St}
    (e : (o.map fun x => (f x, a)) = some (v, b)) (h : Ok a) : Ok b := by
  cases o with
  | none => exact Option.noConfusion e
  | some x => exact ok_of_pairEq e h

theorem ok_eval_lexeme (st : St) (cur : Int) (lex? : Option Lexeme) (pos : String)
    (v : String) (st1 : St) (e : eval_lexeme st cur lex? pos = some (v, st1))
    (h : Ok st) : Ok st1 := by
  unfold eval_lexeme at e
  split at e
  · exact ok_of_pairEq e (ok_compilationError st)
  rename_i lex
  by_cases h1 : lex.kind = "cmt"
  · rw [if_pos h1] at e; exact ok_of_pairEq e h
  rw [if_neg h1] at e
  by_cases h2 : lex.kind = "nam"
  · rw [if_pos h2] at e
    repeat' split at e
    all_goals first
      | exact ok_of_pairEq e h
      | exact ok_of_pairEq e (ok_compilationError st)
      | exact ok_of_mapEq e h
      | exact Option.noConfusion e
  rw [if_neg h2] at e
  by_cases h3 : lex.kind = "cmd"
  · rw [if_pos h3] at e; exact ok_of_pairEq e h
  rw [if_neg h3] at e
  by_cases h4 : lex.kind = "kto"
  · rw [if_pos h4] at e; exact ok_of_pairEq e h
  rw [if_neg h4] at e
  by_cases h5 : lex.kind = "num"
  · rw [if_pos h5] at e; exact ok_of_pairEq e h
  rw [if_neg h5] at e
  by_cases h6 : lex.kind = "reg" ∨ lex.kind = "opr" ∨ lex.kind = "sys" ∨
      lex.kind = "clr" ∨ lex.kind = "mod"
  · rw [if_pos h6] at e
    repeat' split at e
    all_goals first
      | exact ok_of_pairEq e h
      | exact ok_of_pairEq e (ok_compilationError st)
  rw [if_neg h6] at e
  by_cases h7 : lex.kind = "str"
  · rw [if_pos h7] at e
    repeat' split at e
    all_goals first
      | exact ok_of_pairEq e h
      | exact ok_of_mapEq e h
      | exact Option.noConfusion e
  rw [if_neg h7] at e
  by_cases h8 : lex.kind = "lbl"
  · rw [if_pos h8] at e
    repeat' split at e
    all_goals first
      | exact ok_of_pairEq e h
      | exact ok_of_mapEq e h
      | exact Option.noConfusion e
  rw [if_neg h8] at e
  by_cases h9 : lex.kind = "var"
  · rw [if_pos h9] at e
    repeat' split at e
    all_goals first
      | exact ok_of_pairEq e h
      | exact ok_of_pairEq e (ok_compilationError st)
      | exact ok_of_mapEq e h
      | exact Option.noConfusion e
  rw [if_neg h9] at e
  exact ok_of_pairEq e (ok_compilationError st)

theorem ok_evalOps (cur : Int) (cmd : String) :
    ∀ (ls : List Lexeme) (st : St) (i : Nat) (r : St × List String × List String),
      evalOps cur cmd st ls i = some r → Ok st → Ok r.1 := by
  intro ls
  induction ls with
  | nil =>
    intro st i r e h
    injection e with e1
    subst e1
    exact h
  | cons l t ih =>
    intro st i r e h
    unfold evalOps at e
    split at e
    · exact Option.noConfusion e
    · rename_i v1 p heq
      have h1 : Ok p := ok_eval_lexeme _ _ _ _ _ _ heq h
      split at e
      · injection e with e1
        subst e1
        exact h1
      · split at e
        · exact Option.noConfusion e
        · rename_i q heq2
          injection e with e1
          subst e1
          have h2 := ih _ (i + 1) _ heq2 h1
          exact h2

theorem ok_emitBlock (s : P2) (d : Bool) (s3 : P2)
    (e : emitBlock s d = some s3) (h : Ok s.st) : Ok s3.st := by
  unfold emitBlock at e
  split at e
  · exact Option.noConfusion e
  · rename_i r heq
    injection e with e1
    subst e1
    exact ok_evalOps _ _ _ _ _ _ heq h

theorem ok_collectLexemes (n : Nat) : ∀ (st : St) (acc : List Lexeme) (es : List Entry),
    Ok st → Ok (collectLexemes st acc n es).1 := by
  induction n with
  | zero => exact fun _ _ _ h => h
  | succ n ih =>
    intro st acc es h
    cases es with
    | nil => exact ok_compilationError st
    | cons e es =>
      cases e with
      | file f => exact ok_compilationError st
      | line m => exact ok_compilationError st
      | lx l =>
        show Ok (if l = (⟨"_", "cmt", ""⟩ : Lexeme) then collectLexemes st acc n es
                 else if validLexemeFormat l then collectLexemes st (acc ++ [l]) n es
                 else (compilationError st, [], es)).1
        split
        · exact ih _ _ _ h
        · split
          · exact ih _ _ _ h
          · exact ok_compilationError st

theorem ok_pass2Loop (fuel : Nat) : ∀ (s : P2) (es : List Entry),
    Ok s.st → Ok (pass2Loop fuel s es).1.st := by
  induction fuel with
  | zero =>
    intro s es h
    cases es with
    | nil => exact h
    | cons e es => exact h
  | succ n ih =>
    intro s es h
    cases es with
    | nil => exact h
    | cons e es =>
      show Ok (if s.st.aborted then ((s, e :: es) : P2 × List Entry)
               else match e with
               | Entry.file f => pass2Loop n { s with curFile := f } es
               | Entry.line m => pass2Loop n { s with curLineNo := Nat.repr m } es
               | Entry.lx l =>
                 if l.pre = "_" ∧ l.kind = "cmd" then
                   match p2count l.payload with
                   | none => pass2Loop n { s with st := compilationError s.st } es
                   | some c =>
                     let r := collectLexemes s.st [] c es
                     pass2Loop n
                       { s with st := r.1, lastCount := some c,
                                lastLexemes := r.2.1, lastCmd := l.payload } r.2.2
                 else pass2Loop n s es).1.st
      split
      · exact h
      · split
        · exact ih _ _ h
        · exact ih _ _ h
        · dsimp only
          repeat' split
          all_goals first
            | exact ih _ _ h
            | exact ih _ _ (ok_compilationError _)
            | exact ih _ _ (ok_collectLexemes _ _ _ _ h)

theorem finishWrite_done (s : P2) (st : St) (img : List String) (n : Nat)
    (e : finishWrite s = (st, Outcome.done img n)) : st = s.st ∧ n = s.st.errCount := by
  unfold finishWrite at e
  injection e with e1 e2
  injection e2 with e3 e4
  exact ⟨e1.symm, e4.symm⟩

theorem pass2AndWrite_done (d : Bool) (first : Nat) (st0 st : St)
    (img : List String) (n : Nat)
    (e : pass2AndWrite d first st0 = (st, Outcome.done img n)) (h : Ok st0) :
    n = st.errCount ∧ st.errCount ≤ 20 := by
  unfold pass2AndWrite at e
  dsimp only at e
  have hok : Ok (pass2Loop (st0.parsedLexemes.length + 1)
      { st := st0, curFile := "", curLineNo := "", curInstrNo := (first : Int) - 1,
        output := [], lastCount := none, lastLexemes := [], lastCmd := "" }
      st0.parsedLexemes).1.st := ok_pass2Loop _ _ _ h
  split at e
  · injection e with e1 e2; exact Outcome.noConfusion e2
  · rename_i hab
    have hf : _ = false := Bool.eq_false_iff.mpr hab
    split at e
    · injection e with e1 e2; exact Outcome.noConfusion e2
    · rename_i c hc
      split at e
      · obtain ⟨h1, h2⟩ := finishWrite_done _ _ _ _ e
        subst h1
        exact ⟨h2, hok hf⟩
      · split at e
        · obtain ⟨h1, h2⟩ := finishWrite_done _ _ _ _ e
          subst h1
          exact ⟨h2, hok hf⟩
        · split at e
          · injection e with e1 e2; exact Outcome.noConfusion e2
          · rename_i s3 hemit
            have hok3 : Ok s3.st := ok_emitBlock _ _ _ hemit hok
            split at e
            · injection e with e1 e2; exact Outcome.noConfusion e2
            · rename_i hab3
              obtain ⟨h1, h2⟩ := finishWrite_done _ _ _ _ e
              subst h1
              exact ⟨h2, hok3 (Bool.eq_false_iff.mpr hab3)⟩

theorem assemble_done (u d : Bool) (symtab : List (String × String))
    (files : List (String × List String)) (st : St) (img : List String) (n : Nat)
    (e : assemble u d symtab files = (st, Outcome.done img n)) :
    n = st.errCount ∧ st.errCount ≤ 20 := by
  unfold assemble at e
  dsimp only at e
  split at e
  · injection e with e1 e2; exact Outcome.noConfusion e2
  · exact pass2AndWrite_done _ _ _ _ _ _ e
      (ok_pass1 files _ (fun _ => Nat.zero_le 20))

/-- C1: pass 1 accepts the single instruction `cpu_exec` (one `_ cmd` entry
in the stream, address counter advanced once), yet the completed run writes
an image with no instruction lines at all and exit status 0: the pass-2
emission block sits under a dead `elif` after the `while` loop, so no
instruction record is ever appended, contradicting the claim that pass 2
appends exactly one record per surviving instruction. -/
theorem claim_C1 :
    (assembleK [("p.kasm", ["cpu_exec"])]).2 = Outcome.done [] 0
  ∧ instrEntryCount (assembleK [("p.kasm", ["cpu_exec"])]).1.parsedLexemes = 1
  ∧ (assembleK [("p.kasm", ["cpu_exec"])]).1.nextInstrAddr = 42 :=
  ⟨rfl, rfl, rfl⟩

/-- C2: processing `label foo` registers the label at the current
next-instruction address 41 but then advances the address counter to 42:
the declaration falls through to the generic instruction handling and
consumes an instruction slot, contradicting the claim that declarations
leave the counter unchanged. -/
theorem claim_C2 :
    (assembleK [("p.kasm", ["label foo"])]).1.labels = ["foo"]
  ∧ (assembleK [("p.kasm", ["label foo"])]).1.labelsAddr = [41]
  ∧ (assembleK [("p.kasm", ["label foo"])]).1.nextInstrAddr = 42 :=
  ⟨rfl, rfl, rfl⟩

/-- C3: the `write` quote wrap applies to every first operand that does not
already start with a quote, including `label:`/symbol/number forms, so
`write label:foo to 5` pools the string constant `"label:foo"` whose
evaluated value is the literal text (not the label address), `write OP_FOO`
pools the literal `OP_FOO`, `write 7` pools the literal via the string path,
and no diagnostic is raised, contradicting the claimed `LABEL:<name>` and
passthrough handling. -/
theorem claim_C3 :
    (assembleK [("p.kasm",
        ["label foo", "write label:foo to 5", "write OP_FOO to 6",
         "write 7 to 8"])]).1.constants
      = ["\"label:foo\"", "\"OP_FOO\"", "\"7\""]
  ∧ (assembleK [("p.kasm",
        ["label foo", "write label:foo to 5", "write OP_FOO to 6",
         "write 7 to 8"])]).1.constantsEval
      = ["label:foo", "OP_FOO", "7"]
  ∧ (assembleK [("p.kasm",
        ["label foo", "write label:foo to 5", "write OP_FOO to 6",
         "write 7 to 8"])]).1.errCount = 0 :=
  ⟨rfl, rfl, rfl⟩

/-- C4: neither the unknown command `foo` nor the grammar-violating
`copy "x" to 5` produces a diagnostic, and both advance the instruction
address counter (41 to 43): the `INSTRUCTION_RULES` patterns are never
matched against the classified lexemes, contradicting the claimed syntax
validation and dropping. -/
theorem claim_C4 :
    (assembleK [("p.kasm", ["foo", "copy \"x\" to 5"])]).1.errCount = 0
  ∧ (assembleK [("p.kasm", ["foo", "copy \"x\" to 5"])]).1.nextInstrAddr = 43
  ∧ (assembleK [("p.kasm", ["foo", "copy \"x\" to 5"])]).2 = Outcome.done [] 0 :=
  ⟨rfl, rfl, rfl⟩

/-- C5: a program with one plain instruction, one `write` constant and one
variable produces an image of only 2 lines (the constant line and the
variable blank) instead of the claimed N + C + V = 4, and the final
next-free address is 46 = origin + 5 because pass 1 also counts the `var`
declaration line as an instruction slot; the constant is allocated at 44,
after that inflated instruction range, not after the last emitted
instruction. -/
theorem claim_C5 :
    (assembleK [("p.kasm", ["cpu_exec", "write \"hi\" to 5", "var v1"])]).2
      = Outcome.done ["hi", ""] 0
  ∧ (assembleK [("p.kasm", ["cpu_exec", "write \"hi\" to 5", "var v1"])]).1.nextInstrAddr = 46
  ∧ (assembleK [("p.kasm", ["cpu_exec", "write \"hi\" to 5", "var v1"])]).1.constantsAddr = [44]
  ∧ (assembleK [("p.kasm", ["cpu_exec", "write \"hi\" to 5", "var v1"])]).1.varsAddr = [45] :=
  ⟨rfl, rfl, rfl, rfl⟩

/-- C6: writing the same literal `"hi"` twice pools exactly one constant
whose evaluated value is the text verbatim and whose allocated address is
43, and the image's constant region contains `hi`; but the image contains
no instruction line at all, so no emitted operand ever resolves to that
address, contradicting the resolved-operand half of the claim. -/
theorem claim_C6 :
    (assembleK [("p.kasm", ["write \"hi\" to 5", "write \"hi\" to 6"])]).1.constants
      = ["\"hi\""]
  ∧ (assembleK [("p.kasm", ["write \"hi\" to 5", "write \"hi\" to 6"])]).1.constantsEval
      = ["hi"]
  ∧ (assembleK [("p.kasm", ["write \"hi\" to 5", "write \"hi\" to 6"])]).1.constantsAddr
      = [43]
  ∧ (assembleK [("p.kasm", ["write \"hi\" to 5", "write \"hi\" to 6"])]).2
      = Outcome.done ["hi"] 0 :=
  ⟨rfl, rfl, rfl, rfl⟩

/-- C7: a `var:x` use in an instruction placed before the `var x`
declaration yields no diagnostic at all and the run completes with exit
status 0: the resolution engine (`eval_lexeme`, which implements the
use-before-declaration check) is never invoked because the emission block
is unreachable, contradicting the claimed diagnostic. -/
theorem claim_C7 :
    (assembleK [("p.kasm", ["copy var:x to 5", "var x"])]).2 = Outcome.done [""] 0
  ∧ (assembleK [("p.kasm", ["copy var:x to 5", "var x"])]).1.errCount = 0
  ∧ (assembleK [("p.kasm", ["copy var:x to 5", "var x"])]).1.vars = ["x"]
  ∧ (assembleK [("p.kasm", ["copy var:x to 5", "var x"])]).1.varsDecl = [42] :=
  ⟨rfl, rfl, rfl, rfl⟩

/-- C8: the program `write OP_UNKNOWN to 5` (twice) yields zero diagnostics
and exit status 0, because the quote wrap turns the symbol into the string
constant `"OP_UNKNOWN"` (written verbatim into the image) and the symbol
lookup is never reached, contradicting the claimed two diagnostics, exit
status 2 and `0` fallbacks. -/
theorem claim_C8 :
    (assembleK [("p.kasm", ["write OP_UNKNOWN to 5", "write OP_UNKNOWN to 5"])]).1.errCount = 0
  ∧ (assembleK [("p.kasm", ["write OP_UNKNOWN to 5", "write OP_UNKNOWN to 5"])]).2
      = Outcome.done ["OP_UNKNOWN"] 0
  ∧ (assembleK [("p.kasm", ["write OP_UNKNOWN to 5", "write OP_UNKNOWN to 5"])]).1.constants
      = ["\"OP_UNKNOWN\""] :=
  ⟨rfl, rfl, rfl⟩

/-- C9: the abort half of the claim holds (25 invalid lines abort during the
21st diagnostic, with no image) and every completed run exits with status
equal to the diagnostic count, necessarily at most 20; but a program whose
scan never yields an instruction entry crashes with an interpreter error
(`count` referenced before assignment) instead of exiting with its
diagnostic count: two invalid lines yield 2 diagnostics yet no
status-2 exit. -/
theorem claim_C9 :
    (assembleK [("p.kasm", ["copy 1", "copy 1"])]).2 = Outcome.crashed
  ∧ (assembleK [("p.kasm", ["copy 1", "copy 1"])]).1.errCount = 2
  ∧ (assembleK [("p.kasm", List.replicate 25 "copy 1")]).2 = Outcome.aborted
  ∧ (assembleK [("p.kasm", List.replicate 25 "copy 1")]).1.errCount = 21
  ∧ (assembleK [("p.kasm", ["copy 1", "copy 1", "copy 1", "cpu_exec"])]).2
      = Outcome.done [] 3
  ∧ (∀ (u d : Bool) (symtab : List (String × String))
        (files : List (String × List String)) (st : St) (img : List String) (n : Nat),
        assemble u d symtab files = (st, Outcome.done img n) →
        n = st.errCount ∧ st.errCount ≤ 20) :=
  ⟨rfl, rfl, rfl, rfl, rfl,
   fun u d symtab files st img n e => assemble_done u d symtab files st img n e⟩

/-- C9 witness: the completed-run clause applied to the concrete
one-instruction program, whose run finishes with zero diagnostics. -/
theorem claim_C9_witness :
    0 = (assembleK [("w.kasm", ["cpu_exec"])]).1.errCount
  ∧ (assembleK [("w.kasm", ["cpu_exec"])]).1.errCount ≤ 20 :=
  claim_C9.2.2.2.2.2 false true [] [("w.kasm", ["cpu_exec"])]
    ((assembleK [("w.kasm", ["cpu_exec"])]).1) [] 0 rfl

/-- C10: `var x` followed by `label x` records both names with no
diagnostic (the duplicate checks consult disjoint tables), and the
resolver's bare-name case searches the variable table before the label
table, prepending the addressing sigil to a variable address while a label
address is returned without any sigil. -/
theorem claim_C10 :
    ((assembleK [("p.kasm", ["var x", "label x"])]).1.errCount = 0
      ∧ (assembleK [("p.kasm", ["var x", "label x"])]).1.vars = ["x"]
      ∧ (assembleK [("p.kasm", ["var x", "label x"])]).1.labels = ["x"])
  ∧ (∀ (st : St) (cur : Int) (pre name pos : String) (i : Nat)
        (h1 : find_index name st.vars = some i) (h2 : i < st.varsAddr.length),
        eval_lexeme st cur (some ⟨pre, "nam", name⟩) pos
          = some ((if pre = "_" then "" else pre) ++
                  Nat.repr (st.varsAddr.get ⟨i, h2⟩), st))
  ∧ (∀ (st : St) (cur : Int) (pre name pos : String) (j : Nat)
        (h0 : find_index name st.vars = none)
        (h1 : find_index name st.labels = some j) (h2 : j < st.labelsAddr.length),
        eval_lexeme st cur (some ⟨pre, "nam", name⟩) pos
          = some (Nat.repr (st.labelsAddr.get ⟨j, h2⟩), st)) := by
  refine ⟨⟨rfl, rfl, rfl⟩, ?_, ?_⟩
  · intro st cur pre name pos i h1 h2
    have hp : pyNth st.varsAddr ((i : Nat) : Int) = some (st.varsAddr.get ⟨i, h2⟩) := by
      simp [pyNth, List.get?_eq_get h2]
    simp [eval_lexeme, h1, hp, evalPre]
  · intro st cur pre name pos j h0 h1 h2
    have hp : pyNth st.labelsAddr ((j : Nat) : Int) = some (st.labelsAddr.get ⟨j, h2⟩) := by
      simp [pyNth, List.get?_eq_get h2]
    simp [eval_lexeme, h0, h1, hp]

/-- C10 witness: on the concrete state `stWit` the bare name `x` resolves
through the variable table to `@43` (sigil kept) and the bare name `y`
resolves through the label table to `41` (no sigil). -/
theorem claim_C10_witness :
    eval_lexeme stWit 41 (some ⟨"@", "nam", "x"⟩) "copy_0" = some ("@43", stWit)
  ∧ eval_lexeme stWit 41 (some ⟨"@", "nam", "y"⟩) "copy_0" = some ("41", stWit) :=
  ⟨(claim_C10.2.1 stWit 41 "@" "x" "copy_0" 0 rfl (by decide)).trans (by decide),
   (claim_C10.2.2 stWit 41 "@" "y" "copy_0" 0 rfl rfl (by decide)).trans (by decide)⟩

end KaguAsm
